import Mathlib

/-!
Shallow embedding of the RESP server core: the value model and encoder
(src/protocol.rs), the streaming decoder state machine (src/decoders/v2.rs),
the command parser and executor (src/commands.rs) and the keyspace store
(src/db.rs).

Modelling conventions:
* Rust bytes (u8) are Nat; Rust `String` and `Bytes` payloads are `List Nat`
  (byte sequences).  UTF-8 validity checks performed by `String::from_utf8`
  are not modelled: every payload is kept as its byte sequence, so the
  conversion is the identity.
* `isize` is `Int`; overflow inside `str::parse::<isize>` is not modelled.
  The `as usize` cast and `usize` addition wrap modulo 2^64 as on a 64-bit
  platform in the release profile.
* Fallible Rust functions returning `anyhow::Result` are `Except` values;
  `unwrap`/`assert!` panics are modelled as `Except.error`.
* The wall clock (`db::timestamp`) is passed explicitly as a `now` parameter;
  the calls made during a single command execution are modelled as reading
  the same instant.
-/

deriving instance DecidableEq for Except

namespace RedisModel

/-- protocol.rs `DataType`: the RESP value model. -/
inductive DataType where
  | simpleString (string : List Nat)
  | error (type_ : List Nat) (message : List Nat)
  | integer (number : Int)
  | bulkString (string : List Nat)
  | nullBulkString
  | array (items : List DataType)

mutual

/-- Decidable equality for the nested value model. -/
def DataType.decEq : (a b : DataType) → Decidable (a = b)
  | .simpleString a, .simpleString b => decidable_of_iff (a = b) (by simp)
  | .error t1 m1, .error t2 m2 => decidable_of_iff (t1 = t2 ∧ m1 = m2) (by simp)
  | .integer a, .integer b => decidable_of_iff (a = b) (by simp)
  | .bulkString a, .bulkString b => decidable_of_iff (a = b) (by simp)
  | .nullBulkString, .nullBulkString => isTrue rfl
  | .array xs, .array ys =>
    have : Decidable (xs = ys) := DataType.decEqList xs ys
    decidable_of_iff (xs = ys) (by simp)
  | .simpleString _, .error _ _ => isFalse nofun
  | .simpleString _, .integer _ => isFalse nofun
  | .simpleString _, .bulkString _ => isFalse nofun
  | .simpleString _, .nullBulkString => isFalse nofun
  | .simpleString _, .array _ => isFalse nofun
  | .error _ _, .simpleString _ => isFalse nofun
  | .error _ _, .integer _ => isFalse nofun
  | .error _ _, .bulkString _ => isFalse nofun
  | .error _ _, .nullBulkString => isFalse nofun
  | .error _ _, .array _ => isFalse nofun
  | .integer _, .simpleString _ => isFalse nofun
  | .integer _, .error _ _ => isFalse nofun
  | .integer _, .bulkString _ => isFalse nofun
  | .integer _, .nullBulkString => isFalse nofun
  | .integer _, .array _ => isFalse nofun
  | .bulkString _, .simpleString _ => isFalse nofun
  | .bulkString _, .error _ _ => isFalse nofun
  | .bulkString _, .integer _ => isFalse nofun
  | .bulkString _, .nullBulkString => isFalse nofun
  | .bulkString _, .array _ => isFalse nofun
  | .nullBulkString, .simpleString _ => isFalse nofun
  | .nullBulkString, .error _ _ => isFalse nofun
  | .nullBulkString, .integer _ => isFalse nofun
  | .nullBulkString, .bulkString _ => isFalse nofun
  | .nullBulkString, .array _ => isFalse nofun
  | .array _, .simpleString _ => isFalse nofun
  | .array _, .error _ _ => isFalse nofun
  | .array _, .integer _ => isFalse nofun
  | .array _, .bulkString _ => isFalse nofun
  | .array _, .nullBulkString => isFalse nofun

/-- Decidable equality for lists of values. -/
def DataType.decEqList : (xs ys : List DataType) → Decidable (xs = ys)
  | [], [] => isTrue rfl
  | [], _ :: _ => isFalse nofun
  | _ :: _, [] => isFalse nofun
  | x :: xs, y :: ys =>
    have : Decidable (x = y) := DataType.decEq x y
    have : Decidable (xs = ys) := DataType.decEqList xs ys
    decidable_of_iff (x = y ∧ xs = ys) (by simp)

end

instance : DecidableEq DataType := DataType.decEq

/-- protocol.rs `encode_string`: format "+{string}\r\n" as bytes. -/
def encode_string (string : List Nat) : List Nat :=
  43 :: string ++ [13, 10]

/-- protocol.rs `DataType::encode`: only the SimpleString arm is implemented,
every other variant bails with "not implemented". -/
def DataType.encode : DataType → Except String (List Nat)
  | .simpleString string => .ok (encode_string string)
  | _ => .error "not implemented"

/-- Rust `str::parse::<isize>` digit run: at least one ASCII digit, no other
characters.  Returns the accumulated value. -/
def parse_digits_aux : List Nat → Nat → Option Nat
  | [], acc => some acc
  | b :: rest, acc =>
    if 48 ≤ b ∧ b ≤ 57 then parse_digits_aux rest (acc * 10 + (b - 48)) else none

/-- Nonempty all-digit run parse. -/
def parse_digits : List Nat → Option Nat
  | [] => none
  | l => parse_digits_aux l 0

/-- Rust `str::parse::<isize>`: optional leading `+` or `-` sign followed by a
nonempty digit run (overflow not modelled). -/
def parse_isize : List Nat → Option Int
  | 43 :: rest => (parse_digits rest).map Int.ofNat
  | 45 :: rest => (parse_digits rest).map (fun n => -(Int.ofNat n))
  | l => (parse_digits l).map Int.ofNat

/-- decoders/v2.rs `State`: the streaming decoder states. -/
inductive State where
  | expectingDataTypeIdent
  | expectingSimpleStringChar
  | expectingInteger
  | expectingBulkStringSize
  | expectingBulkStringChar (remaining : Int)
  | expectingErrorData
  | expectingArraySize


/-- decoders/v2.rs `Type` (named `Ty` here since `Type` is reserved). -/
inductive Ty where
  | simpleString
  | integer
  | bulkString
  | nullBulkString
  | error


/-- decoders/v2.rs `Type::as_datatype`: interpret the parsing buffer as the
given scalar type. -/
def Ty.as_datatype : Ty → List Nat → Except String DataType
  | .simpleString, buf => .ok (.simpleString buf)
  | .integer, buf =>
    match parse_isize buf with
    | some n => .ok (.integer n)
    | none => .error "invalid digit found in string"
  | .bulkString, buf => .ok (.bulkString buf)
  | .nullBulkString, _ => .ok .nullBulkString
  | .error, buf => .ok (.error [] buf)

/-- decoders/v2.rs `StreamDecoder`: the state-machine fields.  The byte source
and `input_buffer` are modelled separately (see `decode_reads`); `pos` is
bookkeeping with no semantic effect and is omitted. -/
structure StreamDecoder where
  state : State
  parsing_buffer : List Nat
  /-- stack of array buffers for nested arrays -/
  array_buffer : List (List DataType)
  /-- stack of array buffer remainders -/
  array_remainders : List Int
  expecting_rn : Bool
  /-- queue of parsed packets -/
  parsed : List DataType


/-- decoders/v2.rs `StreamDecoder::new`. -/
def StreamDecoder.new : StreamDecoder :=
  { state := .expectingDataTypeIdent
    parsing_buffer := []
    array_buffer := []
    array_remainders := []
    expecting_rn := false
    parsed := [] }

/-- decoders/v2.rs `StreamDecoder::buffer_as_isize`: parse the buffer as a
signed integer and clear it; a parse failure is fatal. -/
def buffer_as_isize (s : StreamDecoder) : Except String (Int × StreamDecoder) :=
  match parse_isize s.parsing_buffer with
  | some n => .ok (n, { s with parsing_buffer := [] })
  | none => .error "invalid digit found in string"

/-- decoders/v2.rs `StreamDecoder::commit_array_buffer` driven by the
`while let Some(()) = self.commit_array_buffer() {}` loop of `commit_buffer`:
pop the top remainder; if it is positive push it back and stop; a negative
value fails the `assert_eq!(remainder, 0)`; at zero pop the finished item
list, wrap it as an Array and either push it into the parent frame
(decrementing the parent remainder and looping) or append it to the parsed
queue when no frame is left. -/
def commit_array_loop (ab : List (List DataType)) (ar : List Int)
    (parsed : List DataType) :
    Except String (List (List DataType) × List Int × List DataType) :=
  match ar with
  | [] => .error "pop on empty array remainders"
  | r :: rest =>
    if 0 < r then .ok (ab, r :: rest, parsed)
    else if r < 0 then .error "assertion failed"
    else
      match ab with
      | [] => .error "pop on empty array buffer"
      | items :: abRest =>
        match abRest, rest with
        | parent :: ab2, pr :: rest2 =>
          commit_array_loop ((parent ++ [DataType.array items]) :: ab2)
            ((pr - 1) :: rest2) parsed
        | [], _ => .ok ([], rest, parsed ++ [DataType.array items])
        | _ :: _, [] => .error "pop on empty array remainders"
termination_by ar.length
decreasing_by simp

/-- decoders/v2.rs `StreamDecoder::commit_buffer`: parse the buffer as the
given type, push the value either into the top array frame (running the
commit loop when the frame's remainder reaches zero) or into the parsed
queue, and clear the buffer. -/
def commit_buffer (ty : Ty) (s : StreamDecoder) : Except String StreamDecoder := do
  let data ← ty.as_datatype s.parsing_buffer
  match s.array_buffer with
  | storage :: abRest =>
    match s.array_remainders with
    | [] => .error "pop on empty array remainders"
    | r :: arRest =>
      let storage2 := storage ++ [data]
      let r2 := r - 1
      if r2 = 0 then
        match commit_array_loop (storage2 :: abRest) (r2 :: arRest) s.parsed with
        | .ok (ab, ar, p) =>
          .ok { s with array_buffer := ab, array_remainders := ar,
                       parsed := p, parsing_buffer := [] }
        | .error e => .error e
      else
        .ok { s with array_buffer := storage2 :: abRest,
                     array_remainders := r2 :: arRest, parsing_buffer := [] }
  | [] => .ok { s with parsed := s.parsed ++ [data], parsing_buffer := [] }

/-- decoders/v2.rs `StreamDecoder::handle_datatype_ident`: a known tag byte
selects the next state; any other byte raises `ParseError::StreamIdle`, which
`parse_next` swallows, so it is modelled as leaving the state unchanged. -/
def handle_datatype_ident (byte : Nat) (s : StreamDecoder) : StreamDecoder :=
  if byte = 43 then { s with state := .expectingSimpleStringChar }
  else if byte = 58 then { s with state := .expectingInteger }
  else if byte = 36 then { s with state := .expectingBulkStringSize }
  else if byte = 45 then { s with state := .expectingErrorData }
  else if byte = 42 then { s with state := .expectingArraySize }
  else s

/-- decoders/v2.rs `StreamDecoder::handle_simple_read` (shared by simple
string, integer and error states). -/
def handle_simple_read (byte : Nat) (ty : Ty) (s : StreamDecoder) :
    Except String StreamDecoder :=
  if byte = 13 then .ok { s with expecting_rn := true }
  else if byte = 10 ∧ s.expecting_rn then do
    let s1 ← commit_buffer ty { s with expecting_rn := false }
    .ok { s1 with state := .expectingDataTypeIdent }
  else if s.expecting_rn then
    .ok { s with parsing_buffer := s.parsing_buffer ++ [13, byte] }
  else .ok { s with parsing_buffer := s.parsing_buffer ++ [byte] }

/-- decoders/v2.rs `StreamDecoder::handle_bulk_string_size`. -/
def handle_bulk_string_size (byte : Nat) (s : StreamDecoder) :
    Except String StreamDecoder :=
  if byte = 13 then .ok { s with expecting_rn := true }
  else if byte = 10 ∧ s.expecting_rn then do
    let (size, s1) ← buffer_as_isize { s with expecting_rn := false }
    if 0 ≤ size then
      .ok { s1 with state := .expectingBulkStringChar size, parsing_buffer := [] }
    else if size = -1 then do
      let s2 ← commit_buffer .nullBulkString s1
      .ok { s2 with state := .expectingDataTypeIdent }
    else .ok s1
  else if s.expecting_rn then .error "error parsing integer"
  else .ok { s with parsing_buffer := s.parsing_buffer ++ [byte] }

/-- decoders/v2.rs `StreamDecoder::handle_bulk_string_char`. -/
def handle_bulk_string_char (byte : Nat) (remaining : Int) (s : StreamDecoder) :
    Except String StreamDecoder :=
  if remaining < 0 ∧ byte ≠ 13 then .error "error parsing bulk string"
  else if byte = 13 ∧ remaining = 0 then .ok { s with expecting_rn := true }
  else if byte = 10 ∧ s.expecting_rn then do
    let s1 ← commit_buffer .bulkString { s with expecting_rn := false }
    .ok { s1 with state := .expectingDataTypeIdent }
  else if s.expecting_rn then .error "error parsing bulk string"
  else
    .ok { s with parsing_buffer := s.parsing_buffer ++ [byte],
                 state := .expectingBulkStringChar (remaining - 1) }

/-- decoders/v2.rs `StreamDecoder::handle_array_size`: on the terminating
CRLF push a fresh item buffer and the declared remainder onto the two
stacks and return to the ident state. -/
def handle_array_size (byte : Nat) (s : StreamDecoder) :
    Except String StreamDecoder :=
  if byte = 13 then .ok { s with expecting_rn := true }
  else if byte = 10 ∧ s.expecting_rn then do
    let (size, s1) ← buffer_as_isize { s with expecting_rn := false }
    .ok { s1 with array_buffer := [] :: s1.array_buffer,
                  array_remainders := size :: s1.array_remainders,
                  state := .expectingDataTypeIdent }
  else if s.expecting_rn then .error "got CR in the middle of array size"
  else .ok { s with parsing_buffer := s.parsing_buffer ++ [byte] }

/-- decoders/v2.rs `StreamDecoder::parse_next`, restricted to the handling of
one already-acquired byte (byte acquisition is `get_byte`, modelled by
`decode_reads` below). -/
def parse_next (s : StreamDecoder) (byte : Nat) : Except String StreamDecoder :=
  match s.state with
  | .expectingDataTypeIdent => .ok (handle_datatype_ident byte s)
  | .expectingSimpleStringChar => handle_simple_read byte .simpleString s
  | .expectingInteger => handle_simple_read byte .integer s
  | .expectingBulkStringSize => handle_bulk_string_size byte s
  | .expectingBulkStringChar r => handle_bulk_string_char byte r s
  | .expectingErrorData => handle_simple_read byte .error s
  | .expectingArraySize => handle_array_size byte s

/-- Drive the state machine over a list of bytes. -/
def run_bytes (s : StreamDecoder) : List Nat → Except String StreamDecoder
  | [] => .ok s
  | b :: rest =>
    match parse_next s b with
    | .ok s1 => run_bytes s1 rest
    | .error e => .error e

/-- decoders/v2.rs `StreamDecoder::get_byte`: a read fills a 1024-byte array
and the WHOLE array is appended to the input buffer (`Bytes::from(buf.to_vec())`
ignores the returned count), so a read of fewer than 1024 bytes pads the
stream with trailing zero bytes. -/
def read_padded (chunk : List Nat) : List Nat :=
  chunk ++ List.replicate (1024 - chunk.length) 0

/-- The effective byte stream seen by the state machine when the source
delivers the given (nonempty) read chunks in order. -/
def stream_of_reads (reads : List (List Nat)) : List Nat :=
  (reads.map read_padded).flatten

/-- Parsed-value queue produced after consuming all reads. -/
def decode_reads (reads : List (List Nat)) : Except String (List DataType) :=
  (run_bytes StreamDecoder.new (stream_of_reads reads)).map StreamDecoder.parsed

/-- db.rs `DBValue`: a stored value with its absolute expiration stamp
(`0` = no expiry). -/
structure DBValue where
  value : List Nat
  expiration : Nat
deriving DecidableEq

/-- db.rs `DBValue::with_expiration`: a positive relative expiry is turned
into the absolute stamp `now + expiration`; `0` is kept as-is.  The addition
is a `usize` addition, which on a 64-bit platform in the release profile
wraps modulo 2^64 on overflow. -/
def DBValue.with_expiration (value : List Nat) (expiration : Nat) (now : Nat) :
    DBValue :=
  if 0 < expiration then
    { value := value, expiration := (now + expiration) % (2 ^ 64) }
  else { value := value, expiration := expiration }

/-- db.rs `DBValue::is_expired`: `expiration != 0 && expiration <= now`. -/
def DBValue.is_expired (v : DBValue) (now : Nat) : Bool :=
  decide (v.expiration ≠ 0) && decide (v.expiration ≤ now)

/-- db.rs `MapInner`: the keyspace, `HashMap<String, DBValue>` modelled as a
function from key bytes to an optional entry. -/
def Map : Type := List Nat → Option DBValue

/-- commands.rs `ParseError`. -/
inductive CmdParseError where
  | EmptyArray
  | UnkownCommand (cmd : List Nat)
  | InvalidFirstAttribute
  | InvalidCommandDataType
  | BadArguments
  | UnsupportedOption (opt : List Nat) (cmd : List Nat)
  /-- a fifth SET argument that does not parse as an integer (the `?` on
  `parse()` in `from_vec`) -/
  | IntParse
deriving DecidableEq

/-- commands.rs `Commands`. -/
inductive Commands where
  | PING
  | COMMAND
  | ECHO (message : List Nat)
  | SET (key : List Nat) (value : List Nat) (expiry : Nat)
  | GET (key : List Nat)
deriving DecidableEq

/-- Rust `str::to_uppercase` restricted to ASCII, which is all the command
tokens use. -/
def upper_ascii (l : List Nat) : List Nat :=
  l.map (fun b => if 97 ≤ b ∧ b ≤ 122 then b - 32 else b)

/-- Rust `isize as usize` on a 64-bit platform: two's-complement wrap,
i.e. reduction modulo 2^64. -/
def isize_as_usize (n : Int) : Nat := (n % (2 ^ 64)).toNat

/-- commands.rs `get_string_or_bad_args!`: element `i` must exist and be a
SimpleString or BulkString, anything else is `BadArguments`. -/
def get_string_arg (array : List DataType) (i : Nat) :
    Except CmdParseError (List Nat) :=
  match array[i]? with
  | some (.simpleString string) => .ok string
  | some (.bulkString string) => .ok string
  | _ => .error .BadArguments

/-- "PING" -/
def strPING : List Nat := [80, 73, 78, 71]
/-- "COMMAND" -/
def strCOMMAND : List Nat := [67, 79, 77, 77, 65, 78, 68]
/-- "ECHO" -/
def strECHO : List Nat := [69, 67, 72, 79]
/-- "SET" -/
def strSET : List Nat := [83, 69, 84]
/-- "GET" -/
def strGET : List Nat := [71, 69, 84]
/-- "PX" -/
def strPX : List Nat := [80, 88]
/-- "PONG" -/
def strPONG : List Nat := [80, 79, 78, 71]
/-- "OK" -/
def strOK : List Nat := [79, 75]

/-- commands.rs `Commands::from_vec`: dispatch on the uppercased first
element; for SET the `PX` option is examined only when the array has more
than four elements. -/
def from_vec (array : List DataType) : Except CmdParseError Commands :=
  match array[0]? with
  | none => .error .EmptyArray
  | some cmd =>
    match cmd with
    | .bulkString string | .simpleString string =>
      let u := upper_ascii string
      if u = strPING then .ok .PING
      else if u = strCOMMAND then .ok .COMMAND
      else if u = strECHO then do
        let message ← get_string_arg array 1
        .ok (.ECHO message)
      else if u = strSET then do
        let key ← get_string_arg array 1
        let value ← get_string_arg array 2
        if 4 < array.length then do
          let opt ← get_string_arg array 3
          if upper_ascii opt = strPX then do
            let d ← get_string_arg array 4
            match parse_isize d with
            | some msdelay => .ok (.SET key value (isize_as_usize msdelay))
            | none => .error .IntParse
          else .error (.UnsupportedOption opt strSET)
        else .ok (.SET key value 0)
      else if u = strGET then do
        let key ← get_string_arg array 1
        .ok (.GET key)
      else .error (.UnkownCommand string)
    | _ => .error .InvalidFirstAttribute

/-- commands.rs `Commands::execute`: the response value together with the
possibly-updated keyspace.  `String::from_utf8` on stored bytes is the
identity in the byte-sequence model, so execution is total. -/
def Commands.execute (c : Commands) (map : Map) (now : Nat) : DataType × Map :=
  match c with
  | .PING => (.simpleString strPONG, map)
  | .COMMAND => (.simpleString [], map)
  | .ECHO message => (.bulkString message, map)
  | .SET key value expiry =>
    let new_value := DBValue.with_expiration value expiry now
    let old_value := map key
    let map2 : Map := fun k => if k = key then some new_value else map k
    let resp :=
      match old_value with
      | some v =>
        if v.is_expired now then DataType.simpleString strOK
        else DataType.bulkString v.value
      | none => DataType.simpleString strOK
    (resp, map2)
  | .GET key =>
    match map key with
    | some v =>
      (if v.is_expired now then DataType.nullBulkString
       else DataType.bulkString v.value, map)
    | none => (.nullBulkString, map)

/-- Claim C2: the claim states that `encode` succeeds for every constructible
value with the wire forms of the encoding table.  In the code only the
SimpleString arm is implemented: every other variant (Error, Integer,
BulkString, NullBulkString, Array) returns the fatal "not implemented"
error, contradicting the round-trip assertions of the v1 decoder tests. -/
theorem encode_only_simple_string :
    DataType.encode (.simpleString [97]) = .ok [43, 97, 13, 10]
    ∧ DataType.encode (.error [] [101]) = .error "not implemented"
    ∧ DataType.encode (.integer 204123) = .error "not implemented"
    ∧ DataType.encode (.bulkString [104]) = .error "not implemented"
    ∧ DataType.encode .nullBulkString = .error "not implemented"
    ∧ DataType.encode (.array []) = .error "not implemented" :=
  ⟨rfl, rfl, rfl, rfl, rfl, rfl⟩

/-- Claim C5: the claim states that an array header declaring count 0
(input `*0\r\n`) commits the empty Array immediately.  In the code
`handle_array_size` only pushes a frame with remainder 0 and `commit_buffer`
is never invoked for it, so nothing is emitted; a following value (here
`+a\r\n`) is absorbed into the dangling frame and its remainder becomes -1,
so the empty array can never complete. -/
theorem empty_array_never_committed :
    run_bytes StreamDecoder.new [42, 48, 13, 10] =
      .ok { state := .expectingDataTypeIdent, parsing_buffer := [],
            array_buffer := [[]], array_remainders := [0],
            expecting_rn := false, parsed := [] }
    ∧ run_bytes StreamDecoder.new [42, 48, 13, 10, 43, 97, 13, 10] =
      .ok { state := .expectingDataTypeIdent, parsing_buffer := [],
            array_buffer := [[DataType.simpleString [97]]],
            array_remainders := [-1],
            expecting_rn := false, parsed := [] } :=
  ⟨rfl, rfl⟩

/-- Claim C6: the claim states that in simple-string/integer/error scanning a
`\r` following a pending `\r` is appended as literal content (so `\r\r\n`
yields content ending in `\r`) and that any other byte after a pending `\r`
clears the flag.  In the code `handle_simple_read` matches `\r` first, merely
re-setting the flag (the earlier `\r` is dropped: `+x\r\r\n` parses as "x"),
and the other-byte arm pushes `\r` plus the byte WITHOUT clearing the flag
(so in `+a\rb\n` the bare `\n` still terminates, yielding "a\rb"). -/
theorem simple_read_pending_cr_divergence :
    run_bytes StreamDecoder.new [43, 120, 13, 13, 10] =
      .ok { state := .expectingDataTypeIdent, parsing_buffer := [],
            array_buffer := [], array_remainders := [],
            expecting_rn := false, parsed := [.simpleString [120]] }
    ∧ run_bytes StreamDecoder.new [43, 97, 13, 98, 10] =
      .ok { state := .expectingDataTypeIdent, parsing_buffer := [],
            array_buffer := [], array_remainders := [],
            expecting_rn := false, parsed := [.simpleString [97, 13, 98]] } :=
  ⟨rfl, rfl⟩

/-- Claim C7 (counterexample): the claim states that once the declared bulk
length is exhausted, any byte other than `\r` in the terminal position is a
fatal protocol error.  On `$0\r\nA` the byte `A` is instead absorbed as
payload (remaining drops to -1) with no error; and on `$0\r\n\r\r\n` a
second `\r` after the terminal `\r` is tolerated and the bulk string still
commits, though the claim calls any non-`\n` byte there fatal. -/
theorem bulk_terminal_byte_absorbed :
    run_bytes StreamDecoder.new [36, 48, 13, 10, 65] =
      .ok { state := .expectingBulkStringChar (-1), parsing_buffer := [65],
            array_buffer := [], array_remainders := [],
            expecting_rn := false, parsed := [] }
    ∧ run_bytes StreamDecoder.new [36, 48, 13, 10, 13, 13, 10] =
      .ok { state := .expectingDataTypeIdent, parsing_buffer := [],
            array_buffer := [], array_remainders := [],
            expecting_rn := false, parsed := [.bulkString []] } :=
  ⟨rfl, rfl⟩

/-- Claim C9: the claim packages four facts.  The two decode facts hold:
`$-1\r\n` commits `NullBulkString` with no payload bytes, and it is a value
distinct from the empty bulk string.  The two remaining facts fail in the
code: `encode` on NullBulkString returns the "not implemented" error instead
of `$-1\r\n` (contradicting the v1 round-trip test), and a parsed size
strictly below -1 (here `$-2\r\n`) is silently discarded — the machine stays
in the size state with no fatal error — instead of being a malformed-length
error. -/
theorem null_bulk_string_status :
    run_bytes StreamDecoder.new [36, 45, 49, 13, 10] =
      .ok { state := .expectingDataTypeIdent, parsing_buffer := [],
            array_buffer := [], array_remainders := [],
            expecting_rn := false, parsed := [.nullBulkString] }
    ∧ DataType.nullBulkString ≠ DataType.bulkString []
    ∧ DataType.encode .nullBulkString = .error "not implemented"
    ∧ run_bytes StreamDecoder.new [36, 45, 50, 13, 10] =
      .ok { state := .expectingBulkStringSize, parsing_buffer := [],
            array_buffer := [], array_remainders := [],
            expecting_rn := false, parsed := [] } :=
  ⟨rfl, nofun, rfl, rfl⟩

/-- Running the machine over concatenated input processes the pieces in
order. -/
theorem run_bytes_append (xs ys : List Nat) (s : StreamDecoder) :
    run_bytes s (xs ++ ys) =
      match run_bytes s xs with
      | .ok s1 => run_bytes s1 ys
      | .error e => .error e := by
  induction xs generalizing s with
  | nil => simp [run_bytes]
  | cons b rest ih =>
    simp only [List.cons_append, run_bytes]
    cases parse_next s b with
    | ok s1 => exact ih s1
    | error e => rfl

/-- Zero bytes arriving while a new type tag is expected are idle-skipped and
leave the machine unchanged. -/
theorem run_bytes_idle_zeros (n : Nat) (pb : List Nat)
    (ab : List (List DataType)) (ar : List Int) (pd : List DataType) :
    run_bytes ⟨.expectingDataTypeIdent, pb, ab, ar, false, pd⟩
        (List.replicate n 0) =
      .ok ⟨.expectingDataTypeIdent, pb, ab, ar, false, pd⟩ := by
  induction n with
  | zero => rfl
  | succ n ih =>
    rw [List.replicate_succ]
    exact ih

/-- Zero bytes arriving in the middle of a simple string are accumulated as
scalar content. -/
theorem run_bytes_simple_zeros (n : Nat) (pb : List Nat)
    (ab : List (List DataType)) (ar : List Int) (pd : List DataType) :
    run_bytes ⟨.expectingSimpleStringChar, pb, ab, ar, false, pd⟩
        (List.replicate n 0) =
      .ok ⟨.expectingSimpleStringChar, pb ++ List.replicate n 0, ab, ar,
           false, pd⟩ := by
  induction n generalizing pb with
  | zero => simp [run_bytes]
  | succ n ih =>
    rw [List.replicate_succ]
    have h1 : run_bytes ⟨.expectingSimpleStringChar, pb, ab, ar, false, pd⟩
        (0 :: List.replicate n 0) =
        run_bytes ⟨.expectingSimpleStringChar, pb ++ [0], ab, ar, false, pd⟩
          (List.replicate n 0) := rfl
    rw [h1, ih]
    simp

/-- Claim C1: the claim states that splitting a valid wire sequence into two
reads yields the same parsed values as one read.  In the code `get_byte`
ignores the count returned by `stream.read` and appends the WHOLE 1024-byte
array to the input buffer, so every short read pads the byte stream with
zeros; a read boundary inside a value injects those zeros into the value.
Here the wire bytes `+ab\r\n` parse as SimpleString "ab" in one read, but as
SimpleString of "a", 1022 zero bytes and "b" when split into the reads
`+a` / `b\r\n`. -/
theorem split_read_padding_corruption :
    decode_reads [[43, 97, 98, 13, 10]] = .ok [.simpleString [97, 98]]
    ∧ decode_reads [[43, 97], [98, 13, 10]] =
      .ok [.simpleString ([97] ++ List.replicate 1022 0 ++ [98])] := by
  constructor
  · have hs : stream_of_reads [[43, 97, 98, 13, 10]] =
        [43, 97, 98, 13, 10] ++ List.replicate 1019 0 := by
      norm_num [stream_of_reads, read_padded]
    have h5 : run_bytes StreamDecoder.new [43, 97, 98, 13, 10] =
        .ok ⟨.expectingDataTypeIdent, [], [], [], false,
             [.simpleString [97, 98]]⟩ := rfl
    rw [decode_reads, hs]
    simp only [run_bytes_append, h5, run_bytes_idle_zeros]
    rfl
  · have hs : stream_of_reads [[43, 97], [98, 13, 10]] =
        [43, 97] ++ (List.replicate 1022 0 ++
          ([98, 13, 10] ++ List.replicate 1021 0)) := by
      norm_num [stream_of_reads, read_padded]
    have h2 : run_bytes StreamDecoder.new [43, 97] =
        .ok ⟨.expectingSimpleStringChar, [97], [], [], false, []⟩ := rfl
    have h3 : ∀ pb, run_bytes ⟨.expectingSimpleStringChar, pb, [], [], false, []⟩
        [98, 13, 10] =
        .ok ⟨.expectingDataTypeIdent, [], [], [], false,
             [.simpleString (pb ++ [98])]⟩ := fun pb => rfl
    rw [decode_reads, hs]
    simp only [run_bytes_append, h2, run_bytes_simple_zeros, h3,
      run_bytes_idle_zeros]
    rw [List.append_assoc]
    rfl

/-- Claim C8 (counterexample): the claim states that whenever a fourth SET
argument is present and is not the token PX, an unsupported-option error
results.  In the code the option is examined only when MORE than four
elements are present, so `["SET","k","v","EX"]` (fourth argument `EX`, no
fifth) parses successfully with expiry 0 instead of failing. -/
theorem set_fourth_arg_without_fifth_ignored :
    from_vec [.bulkString strSET, .bulkString [107], .bulkString [118],
              .bulkString [69, 88]] = .ok (.SET [107] [118] 0) :=
  rfl

/-- Claim C3 (counterexample): the claim states that SET stores the absolute
expiry `now_ms() + expiry` whenever `expiry != 0`.  The addition is a
`usize` addition, which wraps on overflow, and the overflowing input is
reachable: per `from_vec`, `SET k v PX -5` yields expiry `2^64 - 5` through
the `as usize` cast, after which at `now = 100` the program stores the
wrapped stamp `95` — not `100 + (2^64 - 5)` — an entry that is already
expired at the very instant it is written. -/
theorem set_expiry_overflow_wraps :
    (Commands.execute (.SET [107] [118] (isize_as_usize (-5)))
        (fun _ => none) 100).2 [107] =
      some { value := [118], expiration := 95 }
    ∧ (95 : Nat) ≠ 100 + isize_as_usize (-5)
    ∧ DBValue.is_expired { value := [118], expiration := 95 } 100 = true :=
  ⟨rfl, by decide, rfl⟩

/-- Claim C3 (amended): executing SET writes the new entry under the key
with the absolute expiry (0 when the relative expiry is 0, otherwise
`(now + expiry) % 2^64` — the `usize` addition wraps on 64-bit overflow),
leaves every other key untouched, and responds with the previous value as a
BulkString when a non-expired entry existed, with SimpleString "OK"
otherwise (no entry, or an expired one). -/
theorem set_execute_semantics (map : Map) (key value : List Nat)
    (expiry now : Nat) :
    ((Commands.execute (.SET key value expiry) map now).2 key =
      some (DBValue.with_expiration value expiry now))
    ∧ ((DBValue.with_expiration value expiry now).expiration =
        if expiry = 0 then 0 else (now + expiry) % (2 ^ 64))
    ∧ (∀ k, k ≠ key →
        (Commands.execute (.SET key value expiry) map now).2 k = map k)
    ∧ (∀ v, map key = some v → v.is_expired now = false →
        (Commands.execute (.SET key value expiry) map now).1 =
          .bulkString v.value)
    ∧ (∀ v, map key = some v → v.is_expired now = true →
        (Commands.execute (.SET key value expiry) map now).1 =
          .simpleString strOK)
    ∧ (map key = none →
        (Commands.execute (.SET key value expiry) map now).1 =
          .simpleString strOK) := by
  refine ⟨?_, ?_, ?_, ?_, ?_, ?_⟩
  · simp [Commands.execute]
  · by_cases h : expiry = 0
    · simp [DBValue.with_expiration, h]
    · simp [DBValue.with_expiration, Nat.pos_of_ne_zero h, h]
  · intro k hk
    simp [Commands.execute, hk]
  · intro v hv hexp
    simp [Commands.execute, hv, hexp]
  · intro v hv hexp
    simp [Commands.execute, hv, hexp]
  · intro h
    simp [Commands.execute, h]

/-- Concrete instance of `set_execute_semantics`: fresh key responds OK. -/
theorem set_execute_semantics_witness :
    (Commands.execute (.SET [107] [118] 5) (fun _ => none) 100).1 =
      .simpleString strOK :=
  (set_execute_semantics (fun _ => none) [107] [118] 5 100).2.2.2.2.2 rfl

/-- Claim C4: executing GET returns the entry value as a BulkString exactly
when an entry exists and is not logically expired, where expired means
`expiration != 0 && expiration <= now`; a missing or expired entry yields
NullBulkString, and the store is not modified. -/
theorem get_execute_semantics (map : Map) (key : List Nat) (now : Nat) :
    ((Commands.execute (.GET key) map now).2 = map)
    ∧ (∀ v : DBValue, v.is_expired now = true ↔
        (v.expiration ≠ 0 ∧ v.expiration ≤ now))
    ∧ (∀ v, map key = some v → v.is_expired now = false →
        (Commands.execute (.GET key) map now).1 = .bulkString v.value)
    ∧ (∀ v, map key = some v → v.is_expired now = true →
        (Commands.execute (.GET key) map now).1 = .nullBulkString)
    ∧ (map key = none →
        (Commands.execute (.GET key) map now).1 = .nullBulkString) := by
  refine ⟨?_, ?_, ?_, ?_, ?_⟩
  · cases h : map key <;> simp [Commands.execute, h]
  · intro v
    simp [DBValue.is_expired]
  · intro v hv hexp
    simp [Commands.execute, hv, hexp]
  · intro v hv hexp
    simp [Commands.execute, hv, hexp]
  · intro h
    simp [Commands.execute, h]

/-- Claim C7 (amended): in the bulk-string payload state, once `remaining`
has reached 0 a `\r` sets the pending-CRLF flag (further `\r` bytes keep it
set), a `\n` with the flag set commits the bulk string, and any other byte
with the flag set is a fatal error; but a non-`\r` byte with the flag clear
in the terminal position is absorbed as payload with `remaining` becoming
negative, after which every `\r` is absorbed as payload and any non-`\r`
byte is fatal. -/
theorem bulk_terminal_amended (s : StreamDecoder) (b : Nat) (r : Int) :
    (r < 0 → b ≠ 13 →
      handle_bulk_string_char b r s = .error "error parsing bulk string")
    ∧ (handle_bulk_string_char 13 0 s = .ok { s with expecting_rn := true })
    ∧ (s.expecting_rn = true → handle_bulk_string_char 10 0 s =
        (match commit_buffer .bulkString { s with expecting_rn := false } with
         | .ok s1 => .ok { s1 with state := State.expectingDataTypeIdent }
         | .error e2 => .error e2))
    ∧ (s.expecting_rn = true → b ≠ 10 → b ≠ 13 →
        handle_bulk_string_char b 0 s = .error "error parsing bulk string")
    ∧ (s.expecting_rn = false → b ≠ 13 →
        handle_bulk_string_char b 0 s =
          .ok { s with parsing_buffer := s.parsing_buffer ++ [b],
                       state := .expectingBulkStringChar (-1) })
    ∧ (s.expecting_rn = false → r < 0 →
        handle_bulk_string_char 13 r s =
          .ok { s with parsing_buffer := s.parsing_buffer ++ [13],
                       state := .expectingBulkStringChar (r - 1) }) := by
  refine ⟨?_, ?_, ?_, ?_, ?_, ?_⟩
  · intro hr hb
    simp [handle_bulk_string_char, hr, hb]
  · simp [handle_bulk_string_char]
  · intro hrn
    simp only [handle_bulk_string_char, hrn]
    norm_num
    cases commit_buffer Ty.bulkString { s with expecting_rn := false } <;> rfl
  · intro hrn hb10 hb13
    simp [handle_bulk_string_char, hrn, hb10, hb13]
  · intro hrn hb13
    simp [handle_bulk_string_char, hrn, hb13]
  · intro hrn hr
    have : ¬ (r < 0 ∧ (13 : Nat) ≠ 13) := by simp
    simp [handle_bulk_string_char, hrn, this, hr, hr.ne]

/-- Concrete instance of `bulk_terminal_amended`: a non-CR byte at negative
remaining aborts the decode. -/
theorem bulk_terminal_amended_witness :
    handle_bulk_string_char 65 (-1) StreamDecoder.new =
      .error "error parsing bulk string" :=
  (bulk_terminal_amended StreamDecoder.new 65 (-1)).1 (by decide) (by decide)

/-- Claim C8 (amended): the SET option check runs only when MORE than four
elements are present.  With exactly key and value (or with a fourth element
but no fifth) the command parses with expiry 0; when fourth and fifth
arguments are present, a fourth argument whose uppercasing is not "PX" is an
unsupported-option error naming the option and the SET command, and
otherwise the fifth must parse as a signed integer, whose value is cast to
unsigned with two's-complement wrap to become the expiry. -/
theorem set_px_option_amended (k v o e : List Nat) :
    (from_vec [.bulkString strSET, .bulkString k, .bulkString v] =
      .ok (.SET k v 0))
    ∧ (from_vec [.bulkString strSET, .bulkString k, .bulkString v,
        .bulkString o] = .ok (.SET k v 0))
    ∧ (upper_ascii o ≠ strPX →
        from_vec [.bulkString strSET, .bulkString k, .bulkString v,
          .bulkString o, .bulkString e] =
          .error (.UnsupportedOption o strSET))
    ∧ (∀ n : Int, upper_ascii o = strPX → parse_isize e = some n →
        from_vec [.bulkString strSET, .bulkString k, .bulkString v,
          .bulkString o, .bulkString e] =
          .ok (.SET k v (isize_as_usize n))) := by
  have hred : from_vec [.bulkString strSET, .bulkString k, .bulkString v,
      .bulkString o, .bulkString e] =
      (if upper_ascii o = strPX then
        (match parse_isize e with
         | some msdelay => Except.ok (Commands.SET k v (isize_as_usize msdelay))
         | none => Except.error CmdParseError.IntParse)
       else Except.error (CmdParseError.UnsupportedOption o strSET)) := rfl
  refine ⟨rfl, rfl, ?_, ?_⟩
  · intro h
    rw [hred, if_neg h]
  · intro n h hp
    rw [hred, if_pos h, hp]

/-- Concrete instances of `set_px_option_amended`: a non-PX option with a
fifth argument errors; a lowercase `px` with delay 100 is accepted. -/
theorem set_px_option_amended_witness :
    from_vec [.bulkString strSET, .bulkString [107], .bulkString [118],
      .bulkString [69, 88], .bulkString [53]] =
      .error (.UnsupportedOption [69, 88] strSET)
    ∧ from_vec [.bulkString strSET, .bulkString [107], .bulkString [118],
      .bulkString [112, 120], .bulkString [49, 48, 48]] =
      .ok (.SET [107] [118] (isize_as_usize 100)) :=
  ⟨(set_px_option_amended [107] [118] [69, 88] [53]).2.2.1 (by decide),
   (set_px_option_amended [107] [118] [112, 120] [49, 48, 48]).2.2.2 100
     (by decide) (by decide)⟩

/-- Concrete instance of `get_execute_semantics`: an entry whose stamp is in
the past is reported as missing. -/
theorem get_execute_semantics_witness :
    (Commands.execute (.GET [107])
      (fun k => if k = [107] then some ⟨[118], 50⟩ else none) 100).1 =
      .nullBulkString :=
  (get_execute_semantics
    (fun k => if k = [107] then some ⟨[118], 50⟩ else none) [107] 100).2.2.2.1
    ⟨[118], 50⟩ rfl rfl

/-- One unfolding step of the commit loop. -/
theorem commit_array_loop_eq (ab : List (List DataType)) (r : Int)
    (rest : List Int) (p : List DataType) :
    commit_array_loop ab (r :: rest) p =
      if 0 < r then .ok (ab, r :: rest, p)
      else if r < 0 then .error "assertion failed"
      else
        match ab with
        | [] => .error "pop on empty array buffer"
        | items :: abRest =>
          match abRest, rest with
          | parent :: ab2, pr :: rest2 =>
            commit_array_loop ((parent ++ [DataType.array items]) :: ab2)
              ((pr - 1) :: rest2) p
          | [], _ => .ok ([], rest, p ++ [DataType.array items])
          | _ :: _, [] => .error "pop on empty array remainders" := by
  rw [commit_array_loop.eq_def]

/-- The commit loop preserves equality of the two stack lengths. -/
theorem commit_array_loop_len (n : Nat) :
    ∀ (ab : List (List DataType)) (ar : List Int) (p : List DataType)
      (ab2 : List (List DataType)) (ar2 : List Int) (p2 : List DataType),
      ar.length ≤ n → ab.length = ar.length →
      commit_array_loop ab ar p = .ok (ab2, ar2, p2) →
      ab2.length = ar2.length := by
  induction n with
  | zero =>
    intro ab ar p ab2 ar2 p2 hle hlen h
    cases ar with
    | nil => simp [commit_array_loop] at h
    | cons r rest => simp at hle
  | succ n ih =>
    intro ab ar p ab2 ar2 p2 hle hlen h
    cases ar with
    | nil => simp [commit_array_loop] at h
    | cons r rest =>
      rw [commit_array_loop_eq] at h
      split at h
      · simp only [Except.ok.injEq, Prod.mk.injEq] at h
        obtain ⟨h1, h2, h3⟩ := h
        subst h1
        subst h2
        exact hlen
      · split at h
        · simp at h
        · cases ab with
          | nil => simp at h
          | cons items abRest =>
            cases abRest with
            | nil =>
              simp only [Except.ok.injEq, Prod.mk.injEq] at h
              obtain ⟨h1, h2, h3⟩ := h
              subst h1
              subst h2
              simp only [List.length_cons, List.length_nil] at hlen
              simp only [List.length_nil]
              omega
            | cons parent ab2' =>
              cases rest with
              | nil => simp at h
              | cons pr rest2 =>
                refine ih _ _ _ _ _ _ ?_ ?_ h
                · simp only [List.length_cons] at hle ⊢
                  omega
                · simpa using hlen

/-- `commit_buffer` preserves equality of the two stack lengths. -/
theorem commit_buffer_len (ty : Ty) (s s2 : StreamDecoder)
    (hlen : s.array_buffer.length = s.array_remainders.length)
    (h : commit_buffer ty s = .ok s2) :
    s2.array_buffer.length = s2.array_remainders.length := by
  obtain ⟨st, pb, ab, ar, rn, pd⟩ := s
  simp only at hlen
  unfold commit_buffer at h
  cases hd : ty.as_datatype pb with
  | error e =>
    rw [hd] at h
    simp [Bind.bind, Except.bind] at h
  | ok data =>
    rw [hd] at h
    simp only [Bind.bind, Except.bind] at h
    cases ab with
    | nil =>
      cases h
      simpa using hlen
    | cons storage abRest =>
      cases ar with
      | nil => simp at h
      | cons r arRest =>
        simp only at h
        split at h
        · cases hc : commit_array_loop ((storage ++ [data]) :: abRest)
            ((r - 1) :: arRest) pd with
          | error e => rw [hc] at h; simp at h
          | ok out =>
            obtain ⟨ab3, ar3, p3⟩ := out
            rw [hc] at h
            simp only [Except.ok.injEq] at h
            subst h
            simp only
            exact commit_array_loop_len (arRest.length + 1) _ _ _ _ _ _
              (by simp) (by simpa using hlen) hc
        · cases h
          simpa using hlen

/-- `handle_simple_read` preserves equality of the two stack lengths. -/
theorem handle_simple_read_len (b : Nat) (ty : Ty) (s s2 : StreamDecoder)
    (hlen : s.array_buffer.length = s.array_remainders.length)
    (h : handle_simple_read b ty s = .ok s2) :
    s2.array_buffer.length = s2.array_remainders.length := by
  obtain ⟨st, pb, ab, ar, rn, pd⟩ := s
  simp only at hlen
  unfold handle_simple_read at h
  split at h
  · cases h; exact hlen
  · split at h
    · cases hc : commit_buffer ty ⟨st, pb, ab, ar, false, pd⟩ with
      | error e => rw [hc] at h; simp [Bind.bind, Except.bind] at h
      | ok s1 =>
        rw [hc] at h
        simp only [Bind.bind, Except.bind, Except.ok.injEq] at h
        subst h
        exact commit_buffer_len ty _ s1 hlen hc
    · split at h
      · cases h; exact hlen
      · cases h; exact hlen

/-- `handle_bulk_string_size` preserves equality of the two stack lengths. -/
theorem handle_bulk_string_size_len (b : Nat) (s s2 : StreamDecoder)
    (hlen : s.array_buffer.length = s.array_remainders.length)
    (h : handle_bulk_string_size b s = .ok s2) :
    s2.array_buffer.length = s2.array_remainders.length := by
  obtain ⟨st, pb, ab, ar, rn, pd⟩ := s
  simp only at hlen
  unfold handle_bulk_string_size at h
  split at h
  · cases h; exact hlen
  · split at h
    · simp only [Bind.bind, Except.bind, buffer_as_isize] at h
      cases hp : parse_isize pb with
      | none => rw [hp] at h; simp at h
      | some size =>
        rw [hp] at h
        simp only at h
        split at h
        · cases h; exact hlen
        · split at h
          · cases hc : commit_buffer Ty.nullBulkString
                ⟨st, [], ab, ar, false, pd⟩ with
            | error e => rw [hc] at h; simp at h
            | ok s1 =>
              rw [hc] at h
              simp only [Except.ok.injEq] at h
              subst h
              exact commit_buffer_len Ty.nullBulkString _ s1 hlen hc
          · cases h; exact hlen
    · split at h
      · cases h
      · cases h; exact hlen

/-- `handle_bulk_string_char` preserves equality of the two stack lengths. -/
theorem handle_bulk_string_char_len (b : Nat) (r : Int) (s s2 : StreamDecoder)
    (hlen : s.array_buffer.length = s.array_remainders.length)
    (h : handle_bulk_string_char b r s = .ok s2) :
    s2.array_buffer.length = s2.array_remainders.length := by
  obtain ⟨st, pb, ab, ar, rn, pd⟩ := s
  simp only at hlen
  unfold handle_bulk_string_char at h
  split at h
  · cases h
  · split at h
    · cases h; exact hlen
    · split at h
      · cases hc : commit_buffer Ty.bulkString ⟨st, pb, ab, ar, false, pd⟩ with
        | error e => rw [hc] at h; simp [Bind.bind, Except.bind] at h
        | ok s1 =>
          rw [hc] at h
          simp only [Bind.bind, Except.bind, Except.ok.injEq] at h
          subst h
          exact commit_buffer_len Ty.bulkString _ s1 hlen hc
      · split at h
        · cases h
        · cases h; exact hlen

/-- `handle_array_size` preserves equality of the two stack lengths (both
stacks grow together on the terminating CRLF). -/
theorem handle_array_size_len (b : Nat) (s s2 : StreamDecoder)
    (hlen : s.array_buffer.length = s.array_remainders.length)
    (h : handle_array_size b s = .ok s2) :
    s2.array_buffer.length = s2.array_remainders.length := by
  obtain ⟨st, pb, ab, ar, rn, pd⟩ := s
  simp only at hlen
  unfold handle_array_size at h
  split at h
  · cases h; exact hlen
  · split at h
    · simp only [Bind.bind, Except.bind, buffer_as_isize] at h
      cases hp : parse_isize pb with
      | none => rw [hp] at h; simp at h
      | some size =>
        rw [hp] at h
        simp only [Except.ok.injEq] at h
        subst h
        simpa using hlen
    · split at h
      · cases h
      · cases h; exact hlen

/-- `handle_datatype_ident` leaves the two stacks untouched. -/
theorem handle_datatype_ident_len (b : Nat) (s : StreamDecoder) :
    (handle_datatype_ident b s).array_buffer = s.array_buffer
    ∧ (handle_datatype_ident b s).array_remainders = s.array_remainders := by
  unfold handle_datatype_ident
  repeat' split
  all_goals exact ⟨rfl, rfl⟩

/-- `parse_next` preserves equality of the two stack lengths. -/
theorem parse_next_len (s : StreamDecoder) (b : Nat) (s2 : StreamDecoder)
    (hlen : s.array_buffer.length = s.array_remainders.length)
    (h : parse_next s b = .ok s2) :
    s2.array_buffer.length = s2.array_remainders.length := by
  unfold parse_next at h
  split at h
  · simp only [Except.ok.injEq] at h
    subst h
    rw [(handle_datatype_ident_len b _).1, (handle_datatype_ident_len b _).2]
    exact hlen
  · exact handle_simple_read_len _ _ _ _ hlen h
  · exact handle_simple_read_len _ _ _ _ hlen h
  · exact handle_bulk_string_size_len _ _ _ hlen h
  · exact handle_bulk_string_char_len _ _ _ _ hlen h
  · exact handle_simple_read_len _ _ _ _ hlen h
  · exact handle_array_size_len _ _ _ hlen h

/-- Running the machine preserves equality of the two stack lengths. -/
theorem run_bytes_len (bs : List Nat) :
    ∀ (s s2 : StreamDecoder),
      s.array_buffer.length = s.array_remainders.length →
      run_bytes s bs = .ok s2 →
      s2.array_buffer.length = s2.array_remainders.length := by
  induction bs with
  | nil =>
    intro s s2 hlen h
    simp only [run_bytes, Except.ok.injEq] at h
    subst h
    exact hlen
  | cons b rest ih =>
    intro s s2 hlen h
    simp only [run_bytes] at h
    cases hp : parse_next s b with
    | error e => rw [hp] at h; simp at h
    | ok s1 =>
      rw [hp] at h
      exact ih s1 s2 (parse_next_len s b s1 hlen hp) h

/-- Claim C10: the stack of array item buffers and the stack of remaining
counts always have equal length: the invariant holds initially, every
successful `parse_next` transition (including the commit operations it
triggers) preserves it, and it therefore holds after processing any byte
sequence from the initial state. -/
theorem array_stack_length_invariant :
    (StreamDecoder.new.array_buffer.length =
      StreamDecoder.new.array_remainders.length)
    ∧ (∀ (s : StreamDecoder) (b : Nat) (s2 : StreamDecoder),
        s.array_buffer.length = s.array_remainders.length →
        parse_next s b = .ok s2 →
        s2.array_buffer.length = s2.array_remainders.length)
    ∧ (∀ (bs : List Nat) (s2 : StreamDecoder),
        run_bytes StreamDecoder.new bs = .ok s2 →
        s2.array_buffer.length = s2.array_remainders.length) :=
  ⟨rfl, fun s b s2 h1 h2 => parse_next_len s b s2 h1 h2,
   fun bs s2 h => run_bytes_len bs StreamDecoder.new s2 rfl h⟩

/-- Concrete instance of `array_stack_length_invariant`: after `*0\r\n` the
two stacks both hold one element. -/
theorem array_stack_length_invariant_witness :
    ({ state := State.expectingDataTypeIdent, parsing_buffer := [],
       array_buffer := [[]], array_remainders := [0], expecting_rn := false,
       parsed := [] } : StreamDecoder).array_buffer.length =
    ({ state := State.expectingDataTypeIdent, parsing_buffer := [],
       array_buffer := [[]], array_remainders := [0], expecting_rn := false,
       parsed := [] } : StreamDecoder).array_remainders.length :=
  array_stack_length_invariant.2.2 [42, 48, 13, 10] _ rfl

end RedisModel
